import Mathlib

/-!
Verification of the ruscii terminal-rendering runtime (src/terminal.rs and
src/app.rs): a shallow embedding of the canvas data model, the diff-flush
render sweep of `Window::draw`, the window lifecycle, and the fixed-timestep
application loop, together with proofs of the specified properties.

Machine integers of the source (`i32` coordinates, `u8` color codes,
nanosecond `u64` durations) are embedded as `Int`/`Nat`; all claims are
stated over value ranges where the source arithmetic does not overflow.
The terminal output stream is embedded as a list of `Command`s, mirroring
the `crossterm` commands queued by the source.
-/

namespace Ruscii

/-- The 2-D integer vector of `spatial::Vec2` (an external collaborator of
the two source files; its `x`/`y` fields are plain signed integers). -/
structure Vec2 where
  x : Int
  y : Int
deriving DecidableEq, Repr

/-- The `Color` enum of terminal.rs: a fixed named palette plus the
`Xterm(u8)` escape carrying an arbitrary palette index. -/
inductive Color where
  | Black
  | White
  | Grey
  | DarkGrey
  | LightGrey
  | Red
  | Green
  | Blue
  | Cyan
  | Yellow
  | Magenta
  | Xterm (code : Nat)
deriving DecidableEq, Repr

/-- The `Color::code` lookup of terminal.rs: each variant maps to one
fixed numeric palette index; `Xterm(code)` passes its index through. -/
def Color.code : Color → Nat
  | Color.Black => 16
  | Color.White => 231
  | Color.Grey => 244
  | Color.DarkGrey => 238
  | Color.LightGrey => 250
  | Color.Red => 196
  | Color.Green => 46
  | Color.Blue => 21
  | Color.Cyan => 51
  | Color.Yellow => 226
  | Color.Magenta => 201
  | Color.Xterm code => code

/-- The `Style` enum of terminal.rs (inert in the active render path). -/
inductive Style where
  | Plain
  | Bold
deriving DecidableEq, Repr

/-- The `VisualElement` struct of terminal.rs: the value of one grid cell. -/
structure VisualElement where
  style : Style
  background : Color
  foreground : Color
  value : Char
deriving DecidableEq, Repr

/-- `VisualElement::new`: plain style, black background, white foreground,
space character. -/
def VisualElement.new : VisualElement :=
  { style := Style.Plain
    background := Color.Black
    foreground := Color.White
    value := ' ' }

/-- The `Canvas` struct of terminal.rs: a flat row-major grid of visual
elements together with its dimension and the configured default element. -/
structure Canvas where
  data : List VisualElement
  dimension : Vec2
  default_element : VisualElement
deriving DecidableEq, Repr

/-- `Canvas::new(dimension, default_element)`: allocates
`dimension.x * dimension.y` cells (the `as usize` cast of the non-negative
product), all set to the default element. -/
def Canvas.new (dimension : Vec2) (default_element : VisualElement) : Canvas :=
  { data := List.replicate (dimension.x * dimension.y).toNat default_element
    dimension := dimension
    default_element := default_element }

/-- `Canvas::contains(pos)`: the bounds test guarding every cell access. -/
def Canvas.contains (c : Canvas) (pos : Vec2) : Bool :=
  0 ≤ pos.x && 0 ≤ pos.y &&
  pos.x < c.dimension.x &&
  pos.y < c.dimension.y

/-- The row-major flat index `(pos.y * dimension.x + pos.x) as usize` used
by `Canvas::elem` and `Canvas::elem_mut`. -/
def Canvas.index (c : Canvas) (pos : Vec2) : Nat :=
  (pos.y * c.dimension.x + pos.x).toNat

/-- `Canvas::elem(pos)`: `Some` cell on an in-bounds position, `None`
otherwise. -/
def Canvas.elem (c : Canvas) (pos : Vec2) : Option VisualElement :=
  if c.contains pos then c.data[c.index pos]? else none

/-- Writing through `Canvas::elem_mut(pos)`: when the position is in
bounds the addressed cell is overwritten, otherwise (the `None` return of
`elem_mut`) the canvas is unchanged. -/
def Canvas.setElem (c : Canvas) (pos : Vec2) (v : VisualElement) : Canvas :=
  if c.contains pos then { c with data := c.data.set (c.index pos) v } else c

/-- `Canvas::fill(elem)`: overwrites every cell unconditionally. -/
def Canvas.fill (c : Canvas) (elem : VisualElement) : Canvas :=
  { c with data := c.data.map (fun _ => elem) }

/-- `Canvas::clear()`: `fill` with the canvas's own default element. -/
def Canvas.clear (c : Canvas) : Canvas :=
  c.fill c.default_element

/-- The structural invariant of a canvas: the flat grid has exactly
`width * height` cells (established by `Canvas::new`, preserved by every
mutation of the source). -/
def Canvas.Wf (c : Canvas) : Prop :=
  c.data.length = (c.dimension.x * c.dimension.y).toNat

instance (c : Canvas) : Decidable c.Wf := by
  unfold Canvas.Wf
  infer_instance

/-- One terminal command queued to the buffered output sink, mirroring the
`crossterm` commands issued by `Window` (color values already resolved to
their palette codes, as `SetForegroundColor(AnsiValue(code))` does). -/
inductive Command where
  | setForeground (code : Nat)
  | setBackground (code : Nat)
  | print (value : Char)
  | moveTo (x y : Nat)
deriving DecidableEq, Repr

/-- Recognizer for foreground-color commands. -/
def Command.isSetForeground : Command → Bool
  | Command.setForeground _ => true
  | _ => false

/-- Recognizer for background-color commands. -/
def Command.isSetBackground : Command → Bool
  | Command.setBackground _ => true
  | _ => false

/-- Recognizer for character-print commands. -/
def Command.isPrint : Command → Bool
  | Command.print _ => true
  | _ => false

/-- Number of foreground-color commands in an output stream. -/
def setForegroundCount (l : List Command) : Nat :=
  l.countP Command.isSetForeground

/-- Number of background-color commands in an output stream. -/
def setBackgroundCount (l : List Command) : Nat :=
  l.countP Command.isSetBackground

/-- Number of character-print commands in an output stream. -/
def printCount (l : List Command) : Nat :=
  l.countP Command.isPrint

/-- The `Window` struct of terminal.rs: the owned canvas plus the buffered
output sink, embedded as the list of commands queued so far. -/
structure Window where
  canvas : Canvas
  target : List Command
deriving DecidableEq, Repr

/-- The commands queued by `Window::clean_state`: default foreground,
default background, cursor to origin. -/
def cleanStateCmds (c : Canvas) : List Command :=
  [Command.setForeground c.default_element.foreground.code,
   Command.setBackground c.default_element.background.code,
   Command.moveTo 0 0]

/-- `Window::clean_state`: queues the reset commands to the sink. -/
def Window.clean_state (w : Window) : Window :=
  { w with target := w.target ++ cleanStateCmds w.canvas }

/-- The cell sweep of `Window::draw`: iterate the cells in row-major
order; queue a foreground command when the cell's foreground differs from
`last_foreground` (updating the tracked value inside that branch, as the
source does), likewise for the background; always queue the cell's
character. -/
def drawSweep : List VisualElement → Color → Color → List Command
  | [], _, _ => []
  | e :: rest, lastForeground, lastBackground =>
    (if lastForeground ≠ e.foreground
      then [Command.setForeground e.foreground.code] else []) ++
    (if lastBackground ≠ e.background
      then [Command.setBackground e.background.code] else []) ++
    [Command.print e.value] ++
    drawSweep rest
      (if lastForeground ≠ e.foreground then e.foreground else lastForeground)
      (if lastBackground ≠ e.background then e.background else lastBackground)

/-- Modelled from the spec (for the refinement half of the diff-flush
claim): a color command is emitted for a cell exactly when the cell's
color differs from the last-emitted one, the tracked value then being that
cell's color; the character is always emitted. -/
def specSweep : List VisualElement → Color → Color → List Command
  | [], _, _ => []
  | e :: rest, lastForeground, lastBackground =>
    (if e.foreground ≠ lastForeground
      then [Command.setForeground e.foreground.code] else []) ++
    (if e.background ≠ lastBackground
      then [Command.setBackground e.background.code] else []) ++
    [Command.print e.value] ++
    specSweep rest e.foreground e.background

/-- Number of transitions of the color obtained by `p` along a cell list,
relative to a starting value: a cell counts exactly when its color differs
from the previous cell's (or from the start value for the first cell). -/
def colorTransitions (p : VisualElement → Color) :
    List VisualElement → Color → Nat
  | [], _ => 0
  | e :: rest, last =>
    (if p e ≠ last then 1 else 0) + colorTransitions p rest (p e)

/-- `Window::draw`: `clean_state`, then the cell sweep starting from the
default element's colors, then `clean_state` again (the final `flush`
writes the sink out unchanged). -/
def Window.draw (w : Window) : Window :=
  let w1 := w.clean_state
  let w2 := { w1 with
    target := w1.target ++
      drawSweep w.canvas.data w.canvas.default_element.foreground
        w.canvas.default_element.background }
  w2.clean_state

/-- `Window::clear`: when the physical display size differs from the
canvas dimension, replace the canvas by a fresh one of the new size built
from the current default element; otherwise fill the canvas with its
default element. The physical size (`terminal::size()`) is a parameter. -/
def Window.clear (w : Window) (size : Vec2) : Window :=
  if w.canvas.dimension ≠ size then
    { w with canvas := Canvas.new size w.canvas.default_element }
  else
    { w with canvas := w.canvas.fill w.canvas.default_element }

/-- The per-frame budget of App::run in nanoseconds:
`Duration::from_nanos(1_000_000_000 / fps)` (integer division). -/
def expected_duration (fps : Nat) : Nat :=
  1000000000 / fps

/-- The end-of-frame pacing of App::run, nanosecond durations:
`expected_duration.checked_sub(dt)` — `some` residual when `dt` does not
exceed the budget (then `thread::sleep` runs for that residual), `none`
when the frame overran (no sleep). -/
def sleepAfterFrame (budget dt : Nat) : Option Nat :=
  if dt ≤ budget then some (budget - dt) else none

/-- The sleeps performed across a run, one entry per frame in order,
each computed by the per-iteration `checked_sub` from that frame's own
elapsed time. -/
def frameSleeps (budget : Nat) : List Nat → List (Option Nat)
  | [] => []
  | dt :: rest => sleepAfterFrame budget dt :: frameSleeps budget rest

/-- Behavior of one `frame_action` invocation: it returns (possibly having
called `State::stop`), or it panics. -/
inductive FrameResult where
  | ok (callStop : Bool)
  | panics
deriving DecidableEq, Repr

/-- Observable effects of App::run and the Window lifecycle, in program
order. `sleepResidual` stands for the end-of-frame conditional sleep,
whose duration logic is modelled separately by `sleepAfterFrame`. -/
inductive Event where
  | openWindow
  | clearWindow
  | consumeKeyEvents
  | frameAction
  | drawWindow
  | sleepResidual
  | closeWindow
  | printRecoveryNotice
  | readLine
deriving DecidableEq, Repr

/-- How the `catch_unwind` region of App::run ended: the loop stopped
normally, the body panicked, or the modelling fuel ran out. -/
inductive Outcome where
  | stopped
  | panicked
  | fuelOut
deriving DecidableEq, Repr

/-- Result of the frame loop: its event trace, the final value of the
`running` flag, the final `step` counter, and how it ended. -/
structure LoopResult where
  events : List Event
  running : Bool
  step : Nat
  outcome : Outcome
deriving DecidableEq, Repr

/-- The `while self.state.is_running()` loop of App::run, entered with
`running = true`: each iteration clears the window, consumes key events,
invokes `frame_action` (which may call `stop` or panic), draws, updates
`dt`/`step`, and sleeps the residual. A panic aborts the iteration
before `draw` and the `step` update, leaving `running` untouched. -/
def appLoop (fa : Nat → FrameResult) : Nat → Nat → LoopResult
  | 0, step => ⟨[], true, step, Outcome.fuelOut⟩
  | fuel + 1, step =>
    match fa step with
    | FrameResult.panics =>
      ⟨[Event.clearWindow, Event.consumeKeyEvents, Event.frameAction],
       true, step, Outcome.panicked⟩
    | FrameResult.ok callStop =>
      if callStop then
        ⟨[Event.clearWindow, Event.consumeKeyEvents, Event.frameAction,
          Event.drawWindow, Event.sleepResidual],
         false, step + 1, Outcome.stopped⟩
      else
        let r := appLoop fa fuel (step + 1)
        ⟨[Event.clearWindow, Event.consumeKeyEvents, Event.frameAction,
          Event.drawWindow, Event.sleepResidual] ++ r.events,
         r.running, r.step, r.outcome⟩

/-- What App::run appends after the `catch_unwind` region: on a normal
stop, the `Window::close` at the end of the closure; on a caught panic,
the recovery notice, the blocking read of one stdin line, and then the
handler's `Window::close`. -/
def closeTrailer : Outcome → List Event
  | Outcome.stopped => [Event.closeWindow]
  | Outcome.panicked =>
    [Event.printRecoveryNotice, Event.readLine, Event.closeWindow]
  | Outcome.fuelOut => []

/-- `App::run(frame_action)`: set `running` true, open the window, run the
frame loop inside `catch_unwind`, then the outcome-dependent trailer; the
function always returns (a caught panic is not re-raised). -/
def appRun (fa : Nat → FrameResult) (fuel : Nat) : LoopResult :=
  let r := appLoop fa fuel 0
  { r with events := Event.openWindow :: r.events ++ closeTrailer r.outcome }

/-- A frame action that panics on its second invocation (step 1). -/
def panicsOnSecondFrame : Nat → FrameResult :=
  fun step => if step = 1 then FrameResult.panics else FrameResult.ok false

/-- A frame action that calls `State::stop` on its third invocation. -/
def stopsOnThirdFrame : Nat → FrameResult :=
  fun step => FrameResult.ok (step == 2)

/-- `Canvas::new` establishes the length invariant. -/
theorem Canvas.new_wf (dimension : Vec2) (d : VisualElement) :
    (Canvas.new dimension d).Wf := by
  simp [Canvas.new, Canvas.Wf]

/-- `Canvas::fill` preserves the length invariant. -/
theorem Canvas.fill_wf (c : Canvas) (e : VisualElement) (h : c.Wf) :
    (c.fill e).Wf := by
  simpa [Canvas.fill, Canvas.Wf] using h

/-- Writing one cell preserves the length invariant. -/
theorem Canvas.setElem_wf (c : Canvas) (pos : Vec2) (v : VisualElement) (h : c.Wf) :
    (c.setElem pos v).Wf := by
  unfold Canvas.setElem
  split
  · simpa [Canvas.Wf] using h
  · exact h

/-- Unfolding of the `contains` bounds test into its four comparisons. -/
theorem Canvas.contains_iff (c : Canvas) (pos : Vec2) :
    c.contains pos = true ↔
      0 ≤ pos.x ∧ pos.x < c.dimension.x ∧ 0 ≤ pos.y ∧ pos.y < c.dimension.y := by
  simp [Canvas.contains]
  tauto

/-- On an in-bounds position of a well-formed canvas, the row-major index
is within the flat grid: the `data[...]` accesses of `elem`/`elem_mut`
never go out of range. -/
theorem Canvas.index_lt (c : Canvas) (pos : Vec2) (hwf : c.Wf)
    (h : c.contains pos = true) : c.index pos < c.data.length := by
  rcases (c.contains_iff pos).mp h with ⟨hx0, hxw, hy0, hyh⟩
  have h1 : pos.y * c.dimension.x + pos.x < c.dimension.x * c.dimension.y := by
    nlinarith
  have h0 : 0 ≤ pos.y * c.dimension.x + pos.x := by
    have := mul_nonneg hy0 (le_of_lt (lt_of_le_of_lt hx0 hxw))
    linarith
  rw [hwf]
  unfold Canvas.index
  omega

/-- C5: `Color::code` is total with exactly the specified table —
Black=16, White=231, Grey=244, DarkGrey=238, LightGrey=250, Red=196,
Green=46, Blue=21, Cyan=51, Yellow=226, Magenta=201 — and `Xterm(n)`
maps every palette index `n` to itself unchanged. -/
theorem color_code_table :
    Color.Black.code = 16 ∧ Color.White.code = 231 ∧ Color.Grey.code = 244 ∧
    Color.DarkGrey.code = 238 ∧ Color.LightGrey.code = 250 ∧
    Color.Red.code = 196 ∧ Color.Green.code = 46 ∧ Color.Blue.code = 21 ∧
    Color.Cyan.code = 51 ∧ Color.Yellow.code = 226 ∧ Color.Magenta.code = 201 ∧
    ∀ n : Nat, (Color.Xterm n).code = n := by
  refine ⟨rfl, rfl, rfl, rfl, rfl, rfl, rfl, rfl, rfl, rfl, rfl, fun n => rfl⟩

/-- Distinct in-bounds coordinates produce distinct row-major indices:
`y*w + x` determines `x` and `y` when `0 ≤ x, x' < w`. -/
theorem rowMajor_index_inj (w x x' y y' : Int) (hx : 0 ≤ x) (hxw : x < w)
    (hx' : 0 ≤ x') (hxw' : x' < w) (h : y * w + x = y' * w + x') :
    y = y' ∧ x = x' := by
  have hw0 : 0 < w := lt_of_le_of_lt hx hxw
  have hy : y = y' := by
    by_contra hne
    rcases lt_or_gt_of_ne hne with hlt | hgt
    · have h1 : y + 1 ≤ y' := hlt
      nlinarith
    · have h1 : y' + 1 ≤ y := hgt
      nlinarith
  subst hy
  exact ⟨rfl, by linarith⟩

/-- C3: on every well-formed canvas (including zero-area ones),
`elem`/`elem_mut` report a present result exactly on coordinates with
`0 ≤ x < width` and `0 ≤ y < height`; the flat-grid access they perform is
in range there, out-of-bounds coordinates give an absent result and leave
the canvas untouched, and on a zero-area canvas every query is absent. -/
theorem canvas_safe_access (c : Canvas) (hwf : c.Wf) (pos : Vec2)
    (v : VisualElement) :
    ((c.elem pos).isSome = true ↔
      0 ≤ pos.x ∧ pos.x < c.dimension.x ∧ 0 ≤ pos.y ∧ pos.y < c.dimension.y)
    ∧ (c.contains pos = true → c.index pos < c.data.length)
    ∧ (c.contains pos = false → c.elem pos = none ∧ c.setElem pos v = c)
    ∧ (c.dimension.x * c.dimension.y = 0 → c.elem pos = none) := by
  refine ⟨?_, c.index_lt pos hwf, ?_, ?_⟩
  · constructor
    · intro hs
      by_contra hb
      have hc : c.contains pos = false := by
        cases hcb : c.contains pos
        · rfl
        · exact absurd ((c.contains_iff pos).mp hcb) hb
      simp [Canvas.elem, hc] at hs
    · intro hb
      have hc : c.contains pos = true := (c.contains_iff pos).mpr hb
      have hi := c.index_lt pos hwf hc
      simp [Canvas.elem, hc, List.getElem?_eq_getElem hi]
  · intro hc
    constructor
    · simp [Canvas.elem, hc]
    · simp [Canvas.setElem, hc]
  · intro hz
    have hc : c.contains pos = false := by
      cases hcb : c.contains pos
      · rfl
      · exfalso
        rcases (c.contains_iff pos).mp hcb with ⟨hx0, hxw, hy0, hyh⟩
        rcases mul_eq_zero.mp hz with h | h <;> omega
    simp [Canvas.elem, hc]

/-- Witness for C3: a 2×3 canvas answers a present result at `(1,2)`. -/
theorem canvas_safe_access_witness :
    ((Canvas.new ⟨2, 3⟩ VisualElement.new).elem ⟨1, 2⟩).isSome = true :=
  (canvas_safe_access (Canvas.new ⟨2, 3⟩ VisualElement.new) (by decide)
    ⟨1, 2⟩ VisualElement.new).1.mpr (by decide)

/-- C4: writing through `elem_mut` at an in-bounds coordinate and then
reading `elem` at the same coordinate returns exactly the just-written
element, and the row-major index addresses one unique cell per in-bounds
coordinate. -/
theorem canvas_write_then_read (c : Canvas) (hwf : c.Wf) (pos : Vec2)
    (v : VisualElement) (hin : c.contains pos = true) :
    (c.setElem pos v).elem pos = some v
    ∧ ∀ pos' : Vec2, c.contains pos' = true → c.index pos' = c.index pos →
        pos' = pos := by
  constructor
  · have hi := c.index_lt pos hwf hin
    have hdim : (c.setElem pos v).dimension = c.dimension := by
      unfold Canvas.setElem
      split <;> rfl
    have hc' : (c.setElem pos v).contains pos = true := by
      rw [(c.setElem pos v).contains_iff pos, hdim]
      exact (c.contains_iff pos).mp hin
    have hidx : (c.setElem pos v).index pos = c.index pos := by
      simp [Canvas.index, hdim]
    have hdata : (c.setElem pos v).data = c.data.set (c.index pos) v := by
      simp [Canvas.setElem, hin]
    rw [Canvas.elem, if_pos hc', hidx, hdata]
    exact List.getElem?_set_eq_of_lt v hi
  · intro pos' h' heq
    rcases (c.contains_iff pos).mp hin with ⟨hx0, hxw, hy0, hyh⟩
    rcases (c.contains_iff pos').mp h' with ⟨hx0', hxw', hy0', hyh'⟩
    have hnn : 0 ≤ pos.y * c.dimension.x + pos.x := by
      have := mul_nonneg hy0 (le_of_lt (lt_of_le_of_lt hx0 hxw))
      linarith
    have hnn' : 0 ≤ pos'.y * c.dimension.x + pos'.x := by
      have := mul_nonneg hy0' (le_of_lt (lt_of_le_of_lt hx0 hxw))
      linarith
    unfold Canvas.index at heq
    have ha : pos'.y * c.dimension.x + pos'.x = pos.y * c.dimension.x + pos.x := by
      rw [← Int.toNat_of_nonneg hnn', ← Int.toNat_of_nonneg hnn]
      exact_mod_cast heq
    have := rowMajor_index_inj c.dimension.x pos'.x pos.x pos'.y pos.y
      hx0' hxw' hx0 hxw ha
    cases pos
    cases pos'
    simp only [Vec2.mk.injEq]
    exact ⟨this.2, this.1⟩

/-- Witness for C4: on a 3×2 canvas, writing a red bold `x` at `(2,1)`
and reading it back returns that element. -/
theorem canvas_write_then_read_witness :
    ((Canvas.new ⟨3, 2⟩ VisualElement.new).setElem ⟨2, 1⟩
        ⟨Style.Bold, Color.Red, Color.Green, 'x'⟩).elem ⟨2, 1⟩ =
      some ⟨Style.Bold, Color.Red, Color.Green, 'x'⟩ :=
  (canvas_write_then_read (Canvas.new ⟨3, 2⟩ VisualElement.new) (by decide)
    ⟨2, 1⟩ ⟨Style.Bold, Color.Red, Color.Green, 'x'⟩ (by decide)).1

/-- C8: `fill(E)` sets every cell to `E` (reading any in-bounds coordinate
afterwards returns `E`), and `clear()` is exactly `fill(default_element)`,
so after `clear` every in-bounds read returns the default element. -/
theorem canvas_fill_clear (c : Canvas) (hwf : c.Wf) (e : VisualElement) :
    (∀ pos : Vec2, c.contains pos = true → (c.fill e).elem pos = some e)
    ∧ c.clear = c.fill c.default_element
    ∧ (∀ pos : Vec2, c.contains pos = true →
        c.clear.elem pos = some c.default_element) := by
  have hfill : ∀ e' : VisualElement, ∀ pos : Vec2, c.contains pos = true →
      (c.fill e').elem pos = some e' := by
    intro e' pos hc
    have hi := c.index_lt pos hwf hc
    have hc' : (c.fill e').contains pos = true := by
      rw [(c.fill e').contains_iff pos]
      exact (c.contains_iff pos).mp hc
    have hidx : (c.fill e').index pos = c.index pos := rfl
    rw [Canvas.elem, if_pos hc', hidx]
    show (c.data.map fun _ => e')[c.index pos]? = some e'
    rw [List.getElem?_map, List.getElem?_eq_getElem hi]
    rfl
  exact ⟨hfill e, rfl, hfill c.default_element⟩

/-- Witness for C8: filling a 2×2 canvas with a yellow-on-blue `q` and
reading `(0,1)` returns that element. -/
theorem canvas_fill_clear_witness :
    ((Canvas.new ⟨2, 2⟩ VisualElement.new).fill
        ⟨Style.Plain, Color.Blue, Color.Yellow, 'q'⟩).elem ⟨0, 1⟩ =
      some ⟨Style.Plain, Color.Blue, Color.Yellow, 'q'⟩ :=
  (canvas_fill_clear (Canvas.new ⟨2, 2⟩ VisualElement.new) (by decide)
    ⟨Style.Plain, Color.Blue, Color.Yellow, 'q'⟩).1 ⟨0, 1⟩ (by decide)

theorem setForegroundCount_append (a b : List Command) :
    setForegroundCount (a ++ b) = setForegroundCount a + setForegroundCount b :=
  List.countP_append _ _ _

theorem setBackgroundCount_append (a b : List Command) :
    setBackgroundCount (a ++ b) = setBackgroundCount a + setBackgroundCount b :=
  List.countP_append _ _ _

theorem printCount_append (a b : List Command) :
    printCount (a ++ b) = printCount a + printCount b :=
  List.countP_append _ _ _

/-- The two sweeps agree: the source's conditional update of the tracked
color coincides with the spec's unconditional one. -/
theorem drawSweep_eq_specSweep (cells : List VisualElement) :
    ∀ fg bg : Color, drawSweep cells fg bg = specSweep cells fg bg := by
  induction cells with
  | nil => intro fg bg; rfl
  | cons e rest ih =>
    intro fg bg
    rcases eq_or_ne fg e.foreground with hf | hf <;>
      rcases eq_or_ne bg e.background with hb | hb <;>
      simp [drawSweep, specSweep, hf, hb, Ne.symm, ih]

/-- The spec sweep prints one character per cell. -/
theorem printCount_specSweep (cells : List VisualElement) :
    ∀ fg bg : Color, printCount (specSweep cells fg bg) = cells.length := by
  induction cells with
  | nil => intro fg bg; rfl
  | cons e rest ih =>
    intro fg bg
    simp only [specSweep]
    rw [printCount_append, printCount_append, printCount_append, ih]
    split_ifs <;> simp [printCount, List.countP_cons, Command.isPrint] <;> omega

/-- The spec sweep emits one foreground command per foreground transition. -/
theorem setForegroundCount_specSweep (cells : List VisualElement) :
    ∀ fg bg : Color, setForegroundCount (specSweep cells fg bg) =
      colorTransitions (fun e => e.foreground) cells fg := by
  induction cells with
  | nil => intro fg bg; rfl
  | cons e rest ih =>
    intro fg bg
    simp only [specSweep, colorTransitions]
    rw [setForegroundCount_append, setForegroundCount_append,
      setForegroundCount_append, ih]
    split_ifs <;>
      simp_all [setForegroundCount, List.countP_cons, Command.isSetForeground,
        Command.isSetBackground]

/-- The spec sweep emits one background command per background transition. -/
theorem setBackgroundCount_specSweep (cells : List VisualElement) :
    ∀ fg bg : Color, setBackgroundCount (specSweep cells fg bg) =
      colorTransitions (fun e => e.background) cells bg := by
  induction cells with
  | nil => intro fg bg; rfl
  | cons e rest ih =>
    intro fg bg
    simp only [specSweep, colorTransitions]
    rw [setBackgroundCount_append, setBackgroundCount_append,
      setBackgroundCount_append, ih]
    split_ifs <;>
      simp_all [setBackgroundCount, List.countP_cons, Command.isSetForeground,
        Command.isSetBackground]

/-- A cell list whose colors all equal the tracked value has no
transitions. -/
theorem colorTransitions_eq_zero (p : VisualElement → Color) :
    ∀ (cells : List VisualElement) (last : Color),
      (∀ e ∈ cells, p e = last) → colorTransitions p cells last = 0 := by
  intro cells
  induction cells with
  | nil => intro last h; rfl
  | cons e rest ih =>
    intro last h
    have he : p e = last := h e (List.mem_cons_self e rest)
    simp only [colorTransitions, he]
    simp only [ne_eq, not_true_eq_false, if_false, ite_self]
    have : ∀ e' ∈ rest, p e' = last := fun e' he' => h e' (List.mem_cons_of_mem e he')
    simp [ih last this, he]

/-- A cell list sharing a single color has at most one transition from any
starting value. -/
theorem colorTransitions_le_one (p : VisualElement → Color)
    (cells : List VisualElement) (last f : Color)
    (h : ∀ e ∈ cells, p e = f) : colorTransitions p cells last ≤ 1 := by
  cases cells with
  | nil => simp [colorTransitions]
  | cons e rest =>
    have he : p e = f := h e (List.mem_cons_self e rest)
    have hrest : ∀ e' ∈ rest, p e' = p e := by
      intro e' he'
      rw [he]
      exact h e' (List.mem_cons_of_mem e he')
    simp only [colorTransitions, colorTransitions_eq_zero p rest (p e) hrest]
    split <;> simp

/-- C1: in the `draw` sweep over the cells in row-major order, a
foreground (resp. background) command is emitted for a cell exactly when
its foreground (resp. background) differs from the last-emitted one, the
tracked values starting at the default element's colors; the character is
always emitted, one print per cell; hence a canvas sharing one color pair
triggers each color command at most once in the sweep, and in general the
number of color commands equals the number of color transitions. -/
theorem draw_diff_flush :
    (∀ (cells : List VisualElement) (fg bg : Color),
        drawSweep cells fg bg = specSweep cells fg bg)
    ∧ (∀ (cells : List VisualElement) (fg bg : Color),
        printCount (drawSweep cells fg bg) = cells.length)
    ∧ (∀ (cells : List VisualElement) (fg bg : Color),
        setForegroundCount (drawSweep cells fg bg) =
          colorTransitions (fun e => e.foreground) cells fg
        ∧ setBackgroundCount (drawSweep cells fg bg) =
          colorTransitions (fun e => e.background) cells bg)
    ∧ (∀ (c : Canvas) (f b : Color),
        (∀ e ∈ c.data, e.foreground = f ∧ e.background = b) →
        setForegroundCount (drawSweep c.data c.default_element.foreground
            c.default_element.background) ≤ 1
        ∧ setBackgroundCount (drawSweep c.data c.default_element.foreground
            c.default_element.background) ≤ 1)
    ∧ (∀ w : Window, (Window.draw w).target =
        w.target ++ cleanStateCmds w.canvas ++
        drawSweep w.canvas.data w.canvas.default_element.foreground
          w.canvas.default_element.background ++
        cleanStateCmds w.canvas) := by
  refine ⟨drawSweep_eq_specSweep, ?_, ?_, ?_, ?_⟩
  · intro cells fg bg
    rw [drawSweep_eq_specSweep]
    exact printCount_specSweep cells fg bg
  · intro cells fg bg
    rw [drawSweep_eq_specSweep]
    exact ⟨setForegroundCount_specSweep cells fg bg,
      setBackgroundCount_specSweep cells fg bg⟩
  · intro c f b h
    constructor
    · rw [drawSweep_eq_specSweep, setForegroundCount_specSweep]
      exact colorTransitions_le_one _ c.data _ f (fun e he => (h e he).1)
    · rw [drawSweep_eq_specSweep, setBackgroundCount_specSweep]
      exact colorTransitions_le_one _ c.data _ b (fun e he => (h e he).2)
  · intro w
    simp [Window.draw, Window.clean_state, List.append_assoc]

/-- Witness for C1: on a fresh 2×2 canvas (all cells the default element)
the sweep emits no foreground command at all. -/
theorem draw_diff_flush_witness :
    setForegroundCount (drawSweep (Canvas.new ⟨2, 2⟩ VisualElement.new).data
      (Canvas.new ⟨2, 2⟩ VisualElement.new).default_element.foreground
      (Canvas.new ⟨2, 2⟩ VisualElement.new).default_element.background) ≤ 1 :=
  (draw_diff_flush.2.2.2.1 (Canvas.new ⟨2, 2⟩ VisualElement.new)
    Color.White Color.Black (by decide)).1

/-- C10: `Window::draw` writes only to the output sink and never modifies
the frame buffer: the canvas, its dimension, its default element, its flat
cell data, and every cell read are identical before and after the call. -/
theorem window_draw_preserves_canvas (w : Window) :
    (Window.draw w).canvas = w.canvas
    ∧ (Window.draw w).canvas.dimension = w.canvas.dimension
    ∧ (Window.draw w).canvas.default_element = w.canvas.default_element
    ∧ (Window.draw w).canvas.data = w.canvas.data
    ∧ ∀ pos : Vec2, (Window.draw w).canvas.elem pos = w.canvas.elem pos :=
  ⟨rfl, rfl, rfl, rfl, fun _ => rfl⟩

/-- Every in-bounds read of a freshly built canvas returns the default
element it was built from. -/
theorem Canvas.new_elem (dim : Vec2) (d : VisualElement) (pos : Vec2)
    (h : (Canvas.new dim d).contains pos = true) :
    (Canvas.new dim d).elem pos = some d := by
  have hi := (Canvas.new dim d).index_lt pos (Canvas.new_wf dim d) h
  rw [Canvas.elem, if_pos h, List.getElem?_eq_getElem hi]
  simp [Canvas.new]

/-- C7: `Window::clear` with a physical display size different from the
canvas dimension replaces the canvas by a fresh one of the new size whose
every cell is the previously configured default element (default
preserved, old cell contents discarded); with an unchanged size it fills
the existing canvas with its default element. -/
theorem window_clear_resize (w : Window) (size : Vec2) :
    (w.canvas.dimension ≠ size →
      (w.clear size).canvas = Canvas.new size w.canvas.default_element
      ∧ (w.clear size).canvas.dimension = size
      ∧ (w.clear size).canvas.default_element = w.canvas.default_element
      ∧ ∀ pos : Vec2, (w.clear size).canvas.contains pos = true →
          (w.clear size).canvas.elem pos = some w.canvas.default_element)
    ∧ (w.canvas.dimension = size →
        (w.clear size).canvas = w.canvas.fill w.canvas.default_element) := by
  constructor
  · intro h
    have hc : (w.clear size).canvas = Canvas.new size w.canvas.default_element := by
      simp [Window.clear, h]
    refine ⟨hc, by rw [hc]; rfl, by rw [hc]; rfl, ?_⟩
    intro pos hin
    rw [hc] at hin ⊢
    exact Canvas.new_elem size w.canvas.default_element pos hin
  · intro h
    simp [Window.clear, h]

/-- Witness for C7: resizing a window holding a 1×1 canvas to 2×2
produces a 2×2 canvas whose cell `(1,0)` is the old default element. -/
theorem window_clear_resize_witness :
    ((Window.mk (Canvas.new ⟨1, 1⟩ VisualElement.new) []).clear ⟨2, 2⟩).canvas.dimension
        = ⟨2, 2⟩
    ∧ ((Window.mk (Canvas.new ⟨1, 1⟩ VisualElement.new) []).clear ⟨2, 2⟩).canvas.elem
        ⟨1, 0⟩ = some VisualElement.new :=
  ⟨((window_clear_resize (Window.mk (Canvas.new ⟨1, 1⟩ VisualElement.new) [])
      ⟨2, 2⟩).1 (by decide)).2.1,
   ((window_clear_resize (Window.mk (Canvas.new ⟨1, 1⟩ VisualElement.new) [])
      ⟨2, 2⟩).1 (by decide)).2.2.2 ⟨1, 0⟩ (by decide)⟩

/-- C6 counterexample: with the 30 fps budget and a frame whose elapsed
time equals the budget exactly (so `dt ≥ budget` as the claim reads),
`checked_sub` yields `some 0` and a sleep of zero duration is performed —
not the absence of a sleep the claim requires. -/
theorem frame_sleep_counterexample :
    expected_duration 30 ≤ expected_duration 30
    ∧ sleepAfterFrame (expected_duration 30) (expected_duration 30) = some 0
    ∧ sleepAfterFrame (expected_duration 30) (expected_duration 30) ≠ none := by
  refine ⟨le_refl _, ?_, ?_⟩ <;> simp [sleepAfterFrame]

/-- C6 amended: after a frame of elapsed time `dt`, the loop sleeps for
exactly `budget - dt` when `dt < budget`, performs a zero-duration sleep
when `dt = budget`, and does not sleep when `dt` strictly exceeds the
budget (`1_000_000_000 / fps` nanoseconds); each frame's sleep is computed
from that frame's own elapsed time only. -/
theorem frame_sleep_amended (budget dt fps : Nat) :
    (dt < budget → sleepAfterFrame budget dt = some (budget - dt))
    ∧ (dt = budget → sleepAfterFrame budget dt = some 0)
    ∧ (budget < dt → sleepAfterFrame budget dt = none)
    ∧ (∀ dts : List Nat, frameSleeps budget dts = dts.map (sleepAfterFrame budget))
    ∧ expected_duration fps = 1000000000 / fps := by
  refine ⟨?_, ?_, ?_, ?_, rfl⟩
  · intro h
    simp [sleepAfterFrame, le_of_lt h]
  · intro h
    simp [sleepAfterFrame, h]
  · intro h
    simp [sleepAfterFrame, Nat.not_le.mpr h]
  · intro dts
    induction dts with
    | nil => rfl
    | cons dt0 rest ih => simp [frameSleeps, ih]

/-- Witness for C6 amended: an instant 5 ns frame at 30 fps sleeps for the
budget minus 5 ns. -/
theorem frame_sleep_amended_witness :
    sleepAfterFrame (expected_duration 30) 5 = some (expected_duration 30 - 5) :=
  (frame_sleep_amended (expected_duration 30) 5 30).1 (by decide)

/-- The frame loop body never queues a `Window::close` or the recovery
notice: those belong to the exit paths outside the loop. -/
theorem appLoop_no_close (fa : Nat → FrameResult) :
    ∀ fuel step : Nat, Event.closeWindow ∉ (appLoop fa fuel step).events
      ∧ Event.printRecoveryNotice ∉ (appLoop fa fuel step).events := by
  intro fuel
  induction fuel with
  | zero => intro step; simp [appLoop]
  | succ n ih =>
    intro step
    simp only [appLoop]
    cases h : fa step with
    | panics => simp
    | ok callStop =>
      by_cases hc : callStop
      · simp [hc]
      · simpa [hc] using ih (step + 1)

/-- C2 counterexample: a frame action panicking on its second invocation,
run with ample fuel: the panic is caught, yet the recovery notice is
printed and the line of input is read while the window is still open —
`Window::close` (the raw-mode/alternate-screen restoration) runs exactly
once, strictly after the notice, not before it and not a second time. -/
theorem panic_recovery_counterexample :
    (appRun panicsOnSecondFrame 10).outcome = Outcome.panicked
    ∧ (appRun panicsOnSecondFrame 10).events.count Event.closeWindow = 1
    ∧ (appRun panicsOnSecondFrame 10).events.filter
        (fun e => e == Event.closeWindow || e == Event.printRecoveryNotice) =
      [Event.printRecoveryNotice, Event.closeWindow] := by
  refine ⟨by decide, by decide, by decide⟩

/-- C2 amended: when the loop body panics, `App::run` catches it and, in
this order, prints the recovery notice, blocks reading one line of
operator input, and then closes the Display Surface — its first and only
close on this path, which is what restores non-raw/normal-screen mode —
before returning normally. -/
theorem panic_recovery_amended (fa : Nat → FrameResult) (fuel : Nat)
    (h : (appLoop fa fuel 0).outcome = Outcome.panicked) :
    (appRun fa fuel).events =
      Event.openWindow :: (appLoop fa fuel 0).events ++
        [Event.printRecoveryNotice, Event.readLine, Event.closeWindow]
    ∧ (appRun fa fuel).events.count Event.closeWindow = 1
    ∧ (appRun fa fuel).events.filter
        (fun e => e == Event.closeWindow || e == Event.printRecoveryNotice) =
      [Event.printRecoveryNotice, Event.closeWindow] := by
  have hev : (appRun fa fuel).events =
      Event.openWindow :: (appLoop fa fuel 0).events ++
        [Event.printRecoveryNotice, Event.readLine, Event.closeWindow] := by
    simp [appRun, closeTrailer, h]
  have hnc := appLoop_no_close fa fuel 0
  refine ⟨hev, ?_, ?_⟩
  · rw [hev]
    simp [List.count_cons, List.count_append,
      List.count_eq_zero.mpr hnc.1]
  · rw [hev]
    have hfilter : (appLoop fa fuel 0).events.filter
        (fun e => e == Event.closeWindow || e == Event.printRecoveryNotice) = [] := by
      rw [List.filter_eq_nil_iff]
      intro a ha
      rcases hnc with ⟨h1, h2⟩
      cases a <;> simp_all
    simp [List.filter_cons, List.filter_append, hfilter]

/-- Witness for C2 amended at the concrete panicking frame action. -/
theorem panic_recovery_amended_witness :
    (appRun panicsOnSecondFrame 10).events.count Event.closeWindow = 1 :=
  (panic_recovery_amended panicsOnSecondFrame 10 (by decide)).2.1

/-- The loop leaves `running` false when it stopped normally (only the
callback's `State::stop` clears it) and still true when the body
panicked. -/
theorem appLoop_running (fa : Nat → FrameResult) :
    ∀ fuel step : Nat,
      ((appLoop fa fuel step).outcome = Outcome.stopped →
        (appLoop fa fuel step).running = false)
      ∧ ((appLoop fa fuel step).outcome = Outcome.panicked →
        (appLoop fa fuel step).running = true) := by
  intro fuel
  induction fuel with
  | zero => intro step; simp [appLoop]
  | succ n ih =>
    intro step
    simp only [appLoop]
    cases h : fa step with
    | panics => simp
    | ok callStop =>
      by_cases hc : callStop
      · simp [hc]
      · simpa [hc] using ih (step + 1)

/-- C9 counterexample: after a caught panic (frame action panicking on its
second invocation), `App::run` returns with the running flag still true —
`is_running()` does not report false; the failure boundary never clears
the flag. -/
theorem running_flag_counterexample :
    (appRun panicsOnSecondFrame 10).outcome = Outcome.panicked
    ∧ (appRun panicsOnSecondFrame 10).running = true := by
  refine ⟨by decide, by decide⟩

/-- C9 amended: the running flag is set true at loop entry; on the normal
exit path it has been set false by the user callback via `State::stop`,
while on the failure path the boundary leaves it untouched, so `run`
returns with the flag still true after a caught failure. -/
theorem running_flag_amended (fa : Nat → FrameResult) (fuel : Nat) :
    (appRun fa 0).running = true
    ∧ ((appRun fa fuel).outcome = Outcome.stopped →
        (appRun fa fuel).running = false)
    ∧ ((appRun fa fuel).outcome = Outcome.panicked →
        (appRun fa fuel).running = true) :=
  ⟨rfl, (appLoop_running fa fuel 0).1, (appLoop_running fa fuel 0).2⟩

/-- Witness for C9 amended: a callback stopping on its third frame leaves
the flag false on return. -/
theorem running_flag_amended_witness :
    (appRun stopsOnThirdFrame 10).running = false :=
  (running_flag_amended stopsOnThirdFrame 10).2.1 (by decide)

end Ruscii
